import Mathlib

/-!
Verification of the event-handler modules of a small distributed-programming
library (point-to-point links, broadcast, leader election, registers,
consensus, Paxos).  Each Python class is embedded as a pure Lean state
machine: a handler takes the module state plus the event payload and returns
the successor state together with the list of events it emits downward
(link sends, broadcasts) and upward (indications).  Handlers that can raise
a Python exception (KeyError, NameError, ValueError, AttributeError,
TypeError) return an Option, with `none` standing for the raised exception.
Addresses and proposal values are both modelled as natural numbers; the
deterministic byte-equal encoding used for hashing is modelled by the value
itself.
-/

namespace FloodingConsensus

/-- Events emitted by the flooding-consensus handlers: a best-effort
broadcast of a proposal set for a round, a broadcast of the decided value,
and the upward Decide indication. -/
inductive Out where
  | broadcastProposal (round : Nat) (proposals : Finset Nat)
  | broadcastDecided (decision : Nat)
  | decideUp (v : Nat)
deriving DecidableEq

/-- State of `FloodingConsensus` (consensus.py, `upon_Init`): the set of
processes not yet detected as crashed, the current round, the optional
decision, and the per-round proposal and received-from maps (Python
defaultdicts of sets, embedded as total functions into finite sets). -/
structure State where
  correct : Finset Nat
  round : Nat
  decision : Option Nat
  proposals : Nat → Finset Nat
  receivedfrom : Nat → Finset Nat

/-- Initial state (`upon_Init`): every member correct, round 1, no decision,
empty proposal sets, and `receivedfrom[0] = members`. -/
def initState (members : Finset Nat) : State :=
  ⟨members, 1, none, fun _ => ∅, fun r => if r = 0 then members else ∅⟩

/-- `FloodingConsensus.decide`: record the decision, broadcast a decided
message and raise the Decide indication. -/
def decide (s : State) (v : Nat) : State × List Out :=
  ({s with decision := some v}, [Out.broadcastDecided v, Out.decideUp v])

/-- `FloodingConsensus.try_to_decide` (consensus.py lines 82-96).  `none`
models the ValueError Python `min` raises on an empty set. -/
def try_to_decide (s : State) : Option (State × List Out) :=
  if s.decision.isSome ∨ ¬ s.correct ⊆ s.receivedfrom s.round then
    some (s, [])
  else if s.receivedfrom s.round = s.receivedfrom (s.round - 1) then
    if h : (s.proposals s.round).Nonempty then
      some (decide s ((s.proposals s.round).min' h))
    else none
  else
    some ({s with round := s.round + 1},
      [Out.broadcastProposal (s.round + 1) (s.proposals (s.round + 1 - 1))])

/-- `FloodingConsensus.upon_Propose` (consensus.py lines 63-70): add the
proposed value to `proposals[1]` and broadcast a round-1 proposal message.
The handler does not look at `decision`. -/
def upon_Propose (s : State) (v : Nat) : State × List Out :=
  (({s with
      proposals := fun r => if r = 1 then insert v (s.proposals 1) else s.proposals r}),
   [Out.broadcastProposal 1 (insert v (s.proposals 1))])

/-- The behaviour of `try_to_decide` claimed by the specification, written
from its words: do nothing when decided or when some correct process is
missing from this round; decide the minimum of the round proposals when the
received-from sets of this round and the previous one agree; otherwise move
to the next round and broadcast the proposals indexed by the new round minus
one. -/
def try_to_decide_claim (s : State) : Option (State × List Out) :=
  if s.decision ≠ none ∨ ¬ s.correct ⊆ s.receivedfrom s.round then
    some (s, [])
  else if s.receivedfrom s.round = s.receivedfrom (s.round - 1) then
    if h : (s.proposals s.round).Nonempty then
      some ({s with decision := some ((s.proposals s.round).min' h)},
        [Out.broadcastDecided ((s.proposals s.round).min' h),
         Out.decideUp ((s.proposals s.round).min' h)])
    else none
  else
    some ({s with round := s.round + 1},
      [Out.broadcastProposal (s.round + 1) (s.proposals s.round)])

/-- A state in which a decision has already been made: the concrete input
of the counterexample for claim C5. -/
def decidedState : State :=
  ⟨∅, 1, some 0, fun _ => ∅, fun _ => ∅⟩

end FloodingConsensus

namespace Synod

/-- A Paxos ballot `n = (max_round, addr)`: a round number paired with the
proposer address, compared lexicographically as Python compares tuples. -/
abbrev Ballot := Nat × Nat

/-- Lexicographic strict order on ballots, the order Python uses on the
tuples `(round, address)`. -/
def ballotLt (a b : Ballot) : Prop :=
  a.1 < b.1 ∨ (a.1 = b.1 ∧ a.2 < b.2)

instance (a b : Ballot) : Decidable (ballotLt a b) := by
  unfold ballotLt; infer_instance

/-- A promise records, per peer, the acceptor `(accepted_proposal,
accepted_value)` pair, each component possibly `None`. -/
abbrev Promise := Nat × Option Ballot × Option Nat

/-- Events emitted by the Synod handlers that the claims observe: the
prepare and accept broadcasts of the proposer. -/
inductive Out where
  | broadcastPrepare (n : Ballot)
  | broadcastAccept (n : Ballot) (v : Nat)
deriving DecidableEq

/-- Synod state (`upon_Init` in paxos.py): the proposer fields `max_round`,
`proposals` (a dict from ballot to value), `promises` and `accepted`
(defaultdicts of sets, embedded as functions into duplicate-free lists) and
`chosen`, plus the acceptor fields; `addr` and `N` come from the module
construction. -/
structure State where
  max_round : Nat
  proposals : Ballot → Option Nat
  promises : Ballot → List Promise
  accepted : Ballot → List Nat
  chosen : Bool
  min_proposal : Option Ballot
  accepted_proposal : Option Ballot
  accepted_value : Option Nat
  addr : Nat
  N : Nat

/-- Loop of `Synod.highest`: Python keeps the running pair `(n, v)` and
replaces it whenever `n is None or accn > n`.  The result `none` models the
TypeError Python 3 raises when `accn` is `None` while `n` is a tuple. -/
def highestAux : Option Ballot → Option Nat → List Promise → Option (Option Nat)
  | _, v, [] => some v
  | none, _, (_, accn, accv) :: rest => highestAux accn accv rest
  | some _, _, (_, none, _) :: _ =>
      -- Python 3 cannot compare None with a tuple: TypeError
      none
  | some nb, v, (_, some accn, accv) :: rest =>
      if ballotLt nb accn then highestAux (some accn) accv rest
      else highestAux (some nb) v rest

/-- `Synod.highest`: the accepted value carried by the promise with the
highest accepted ballot, `some none` when no promise carries one. -/
def highest (ps : List Promise) : Option (Option Nat) :=
  highestAux none none ps

/-- Python truthiness of the value `highest` returns: `None` and `0` are
falsy. -/
def truthy : Option Nat → Bool
  | none => false
  | some v => v ≠ 0

/-- `Synod.upon_Propose` (paxos.py lines 77-86): return immediately when
`chosen`; otherwise pick the next ballot `n = (max_round+1, addr)`, store the
proposal under `n` and broadcast a prepare message. -/
def upon_Propose (s : State) (v : Nat) : State × List Out :=
  if s.chosen then (s, [])
  else
    ({s with
        max_round := s.max_round + 1,
        proposals := fun b =>
          if b = (s.max_round + 1, s.addr) then some v else s.proposals b},
     [Out.broadcastPrepare (s.max_round + 1, s.addr)])

/-- The `promise` branch of `Synod.upon_Deliver` (paxos.py lines 90-106):
raise `max_round` to the round of the embedded ballot, add `(q, accepted)`
to `promises[n]`, and on a majority pick `highest` or, when it is falsy,
look up the proposer own `proposals[n]`.  `none` models a raised exception:
the TypeError inside `highest`, or the KeyError of `self.proposals[n]` when
the proposer never proposed ballot `n` (the FIXME in the source). -/
def deliver_promise (s : State) (q : Nat) (n : Ballot)
    (acc : Option Ballot × Option Nat) : Option (State × List Out) :=
  let s1 := if s.max_round < n.1 then {s with max_round := n.1} else s
  let p := s1.promises n
  let p1 := if (q, acc) ∈ p then p else (q, acc) :: p
  let s2 := {s1 with promises := fun b => if b = n then p1 else s1.promises b}
  if 2 * p1.length > s2.N then
    match highest p1 with
    | none => none
    | some v =>
      if truthy v then
        some ({s2 with proposals := fun b => if b = n then v else s2.proposals b},
          [Out.broadcastAccept n (v.getD 0)])
      else
        match s2.proposals n with
        | none => none
        | some w => some (s2, [Out.broadcastAccept n w])
  else
    some (s2, [])

/-- A proposer state reached in a three-process run: after this process
(address 0) proposed value 42 with ballot `(1,0)` while another proposer at
address 1 had already prepared ballot `(1,1)`, every acceptor answers with a
promise for `(1,1)`; one such promise from address 2 has already been
collected and none carries an accepted value. -/
def keyErrorState : State :=
  { max_round := 1
    proposals := fun b => if b = ((1 : Nat), (0 : Nat)) then some 42 else none
    promises := fun b => if b = ((1 : Nat), (1 : Nat)) then [(2, none, none)] else []
    accepted := fun _ => []
    chosen := false
    min_proposal := some (1, 1)
    accepted_proposal := none
    accepted_value := none
    addr := 0
    N := 3 }

/-- A proposer state whose decision is already chosen: the concrete input
of the witness for claim C5. -/
def chosenState : State :=
  { max_round := 0
    proposals := fun _ => none
    promises := fun _ => []
    accepted := fun _ => []
    chosen := true
    min_proposal := none
    accepted_proposal := none
    accepted_value := none
    addr := 0
    N := 3 }

end Synod

namespace LeaderBasedEpochChange

/-- Messages of the leader-based epoch-change algorithm. -/
inductive Msg where
  | newepoch (ts : Nat)
  | nack
deriving DecidableEq

/-- Events emitted by the epoch-change handlers: the best-effort broadcast
of a newepoch message, a point-to-point nack, and the upward StartEpoch
indication. -/
inductive Out where
  | broadcast (m : Msg)
  | send (q : Nat) (m : Msg)
  | startEpoch (ts : Nat) (l : Nat)
deriving DecidableEq

/-- State of `LeaderBasedEpochChange` (`upon_Init`): the currently trusted
process, the highest timestamp started locally, and the own last newepoch
timestamp, plus the address and the member count of the module. -/
structure State where
  trusted : Option Nat
  lastts : Nat
  ts : Nat
  addr : Nat
  N : Nat
deriving DecidableEq

/-- Initial state: no trusted process, `lastts = 0`, `ts = rank(addr)`. -/
def initState (addr N rank : Nat) : State :=
  ⟨none, 0, rank, addr, N⟩

/-- `LeaderBasedEpochChange.new_epoch`: bump the own timestamp by `N` and
broadcast a newepoch message carrying it. -/
def new_epoch (s : State) : State × List Out :=
  ({s with ts := s.ts + s.N}, [Out.broadcast (Msg.newepoch (s.ts + s.N))])

/-- `LeaderBasedEpochChange.upon_Trust`: remember the trusted process and,
when it is this process, start a new epoch. -/
def upon_Trust (s : State) (p : Nat) : State × List Out :=
  if p = s.addr then new_epoch {s with trusted := some p}
  else ({s with trusted := some p}, [])

/-- `LeaderBasedEpochChange.upon_Deliver` (consensus.py lines 363-373): a
newepoch from the trusted process with a timestamp above `lastts` starts
that epoch; any other newepoch is nacked; a nack makes a trusted self start
yet another epoch. -/
def upon_Deliver (s : State) (q : Nat) (m : Msg) : State × List Out :=
  match m with
  | Msg.newepoch newts =>
      if s.trusted = some q ∧ s.lastts < newts then
        ({s with lastts := newts}, [Out.startEpoch newts q])
      else
        (s, [Out.send q Msg.nack])
  | Msg.nack =>
      if s.trusted = some s.addr then new_epoch s else (s, [])

/-- Events a running epoch-change module can receive: a Trust indication
from the leader detector or a message delivery. -/
inductive Ev where
  | trust (p : Nat)
  | deliver (q : Nat) (m : Msg)

/-- Dispatch one event to its handler. -/
def step (s : State) (e : Ev) : State × List Out :=
  match e with
  | Ev.trust p => upon_Trust s p
  | Ev.deliver q m => upon_Deliver s q m

/-- Run the module over a list of events, concatenating the emitted
events in order. -/
def run (s : State) : List Ev → State × List Out
  | [] => (s, [])
  | e :: es => ((run (step s e).1 es).1, (step s e).2 ++ (run (step s e).1 es).2)

/-- The timestamps of the StartEpoch indications inside an emission list,
in emission order. -/
def startEpochTs (outs : List Out) : List Nat :=
  outs.filterMap fun o =>
    match o with
    | Out.startEpoch t _ => some t
    | _ => none

end LeaderBasedEpochChange

namespace EliminateDuplicates

/-- State of `EliminateDuplicates` (links.py): the set of already delivered
messages, keyed by `hash(pickle.dumps(m))`; the deterministic byte-equal
encoding is modelled by the message value itself. -/
structure State where
  delivered : List Nat
deriving DecidableEq

/-- Initial state: nothing delivered yet. -/
def initState : State := ⟨[]⟩

/-- `EliminateDuplicates.upon_Deliver` (links.py lines 110-114): deliver a
message upward exactly when its key is new, remembering the key. -/
def upon_Deliver (s : State) (q m : Nat) : State × List (Nat × Nat) :=
  if m ∈ s.delivered then (s, [])
  else (⟨m :: s.delivered⟩, [(q, m)])

/-- Feed a list of `(sender, message)` deliveries from the stubborn link
through the module, collecting the upward deliveries in order. -/
def run (s : State) : List (Nat × Nat) → State × List (Nat × Nat)
  | [] => (s, [])
  | (q, m) :: es =>
      ((run (upon_Deliver s q m).1 es).1,
       (upon_Deliver s q m).2 ++ (run (upon_Deliver s q m).1 es).2)

end EliminateDuplicates

namespace MonarchicalLeaderElection

/-- The Leader indication. -/
inductive Out where
  | leader (l : Nat)
deriving DecidableEq

/-- State of `MonarchicalLeaderElection` (leader_election.py lines 14-38):
the member set, the suspected set and the last announced leader. -/
structure State where
  members : Finset Nat
  suspected : Finset Nat
  leader : Option Nat
deriving DecidableEq

/-- `MonarchicalLeaderElection.elect`: the leader is the maximum of the
non-suspected members; announce it exactly when it changed.  `none` models
the ValueError Python `max` raises on an empty collection. -/
def elect (s : State) : Option (State × List Out) :=
  if h : (s.members \ s.suspected).Nonempty then
    if some ((s.members \ s.suspected).max' h) = s.leader then
      some (s, [])
    else
      some ({s with leader := some ((s.members \ s.suspected).max' h)},
        [Out.leader ((s.members \ s.suspected).max' h)])
  else none

/-- `MonarchicalLeaderElection.upon_Crash`: add the peer to the suspected
set and re-elect. -/
def upon_Crash (s : State) (p : Nat) : Option (State × List Out) :=
  elect {s with suspected := insert p s.suspected}

/-- `MonarchicalLeaderElection.upon_Restore` (leader_election.py lines
36-38): remove the peer from the suspected set and re-elect.  `none` models
the KeyError Python `set.remove` raises when the peer is not suspected. -/
def upon_Restore (s : State) (p : Nat) : Option (State × List Out) :=
  if p ∈ s.suspected then elect {s with suspected := s.suspected.erase p}
  else none

/-- The maximum of a finite set of naturals as an Option, the shape the
claim speaks in. -/
def maxOpt (t : Finset Nat) : Option Nat :=
  if h : t.Nonempty then some (t.max' h) else none

/-- The behaviour of `elect` written from the claim words: compute
`max(members - suspected)` and emit a Leader indication exactly when it
differs from the previously announced leader. -/
def elect_claim (s : State) : Option (State × List Out) :=
  (maxOpt (s.members \ s.suspected)).map fun l =>
    if s.leader = some l then (s, [])
    else ({s with leader := some l}, [Out.leader l])

/-- A state in which peer 1 is suspected: the concrete input of the
counterexample for the Restore part of claim C7. -/
def restoreState : State := ⟨{0, 1}, {1}, some 0⟩

end MonarchicalLeaderElection

namespace ReadWriteEpochChange

/-- Messages of the read/write epoch-consensus algorithm. -/
inductive Msg where
  | read
  | state (ts : Nat) (val : Option Nat)
  | write (ts : Nat) (val : Option Nat)
  | accept
  | decided (val : Option Nat)
deriving DecidableEq

/-- Events emitted by the epoch-consensus handlers: point-to-point sends,
best-effort broadcasts, and the upward Decide and Aborted indications. -/
inductive Out where
  | send (q : Nat) (m : Msg)
  | broadcast (m : Msg)
  | decideUp (val : Option Nat)
  | aborted (valts : Nat) (val : Option Nat)
deriving DecidableEq

/-- State of `ReadWriteEpochChange` (`upon_Init`): the locked pair
`(valts, val)`, the leader temporary value, the collected state replies
(a dict from peer to pair) and the accept counter; `N` comes from the
module construction. -/
structure State where
  valts : Nat
  val : Option Nat
  tmpval : Option Nat
  states : List (Nat × Nat × Option Nat)
  accepted : Nat
  N : Nat
deriving DecidableEq

/-- `upon_Init(state)`: unpack the initial `(valts, val)` pair. -/
def upon_Init (st : Nat × Option Nat) (n : Nat) : State :=
  ⟨st.1, st.2, none, [], 0, n⟩

/-- Python dict assignment `states[q] = pr`. -/
def dictInsert (q : Nat) (pr : Nat × Option Nat)
    (l : List (Nat × Nat × Option Nat)) : List (Nat × Nat × Option Nat) :=
  (q, pr.1, pr.2) :: l.filter fun e => e.1 ≠ q

/-- `ReadWriteEpochChange.check_to_write`: on a majority of collected
states the source picks the highest pair, sets `tmpval` and broadcasts a
write message built from `self.ts` — an attribute no handler of this class
ever assigns, so reaching the majority branch always raises AttributeError
before the broadcast; `none` models that exception. -/
def check_to_write (s : State) : Option (State × List Out) :=
  if 2 * s.states.length > s.N then none
  else some (s, [])

/-- `ReadWriteEpochChange.upon_Deliver` (consensus.py lines 401-423). -/
def upon_Deliver (s : State) (q : Nat) (m : Msg) : Option (State × List Out) :=
  match m with
  | Msg.read =>
      some (s, [Out.send q (Msg.state s.valts s.val)])
  | Msg.state ts v =>
      check_to_write {s with states := dictInsert q (ts, v) s.states}
  | Msg.write ts v =>
      some ({s with valts := ts, val := v}, [Out.send q Msg.accept])
  | Msg.accept =>
      if 2 * (s.accepted + 1) > s.N then
        some ({s with accepted := 0}, [Out.broadcast (Msg.decided s.tmpval)])
      else
        some ({s with accepted := s.accepted + 1}, [])
  | Msg.decided v =>
      some (s, [Out.decideUp v])

/-- `ReadWriteEpochChange.upon_Abort` (consensus.py lines 437-439): emit
Aborted with the internal state.  The halt of the book pseudocode is only a
comment in the source; no flag is set and the state is unchanged. -/
def upon_Abort (s : State) : State × List Out :=
  (s, [Out.aborted s.valts s.val])

/-- The state of an instance initialised with `(0, None)` among three
processes right after its Abort handler ran. -/
def abortedState : State := (upon_Abort (upon_Init (0, none) 3)).1

end ReadWriteEpochChange

namespace MajorityVotingRegularRegister

/-- Events emitted by the register handlers that claim C8 observes. -/
inductive Out where
  | broadcastWrite (ts : Nat) (val : Option Nat)
deriving DecidableEq

/-- State of `MajorityVotingRegularRegister` (`upon_Init`): member count,
stored timestamp and value, write timestamp, ack counter, read identifier
and collected read replies. -/
structure State where
  N : Nat
  ts : Nat
  val : Option Nat
  wts : Nat
  acks : Nat
  rid : Nat
  readlist : List (Nat × Nat × Option Nat)
deriving DecidableEq

/-- `MajorityVotingRegularRegister.upon_Write` (register.py lines 99-106):
bump the write timestamp, reset the ack counter, and broadcast a write
message; the source puts `self.val` — not the argument `v` — into the
message val field. -/
def upon_Write (s : State) (v : Nat) : State × List Out :=
  ({s with wts := s.wts + 1, acks := 0},
   [Out.broadcastWrite (s.wts + 1) s.val])

/-- A register state storing value 7 with five stale acks: the concrete
input of the evaluation theorem for claim C8. -/
def writeState : State := ⟨3, 0, some 7, 0, 5, 0, []⟩

end MajorityVotingRegularRegister

namespace BasicBroadcast

/-- Events emitted by `upon_Broadcast`: a point-to-point send of the wire
message `{mid, data}` to a peer, and the local Deliver the handler triggers
on itself after the loop. -/
inductive Out where
  | send (p : Nat) (mid : Nat) (data : Nat)
  | deliverSelf (q : Nat) (mid : Nat) (data : Nat)
deriving DecidableEq

/-- `BasicBroadcast.upon_Broadcast` (broadcast.py lines 27-34): for each
peer build `msg = {mid: fresh uuid, data: m}` (the fresh uuids are modelled
by `mids` applied to the loop index) and send it; after the loop the Python
variable `msg` still names the message of the last iteration, and the
handler triggers a local Deliver of it to the own address.  With no peers
the loop body never runs and `msg` is unbound: `none` models the
NameError. -/
def upon_Broadcast (addr : Nat) (peers : List Nat) (mids : Nat → Nat)
    (m : Nat) : Option (List Out) :=
  if peers.isEmpty then none
  else
    some ((((List.range peers.length).zip peers).map fun ip =>
            Out.send ip.2 (mids ip.1) m)
      ++ [Out.deliverSelf addr (mids (peers.length - 1)) m])

/-- `BasicBroadcast.upon_Deliver` (broadcast.py lines 36-37): pass
`(sender, data)` upward, unwrapping the wire envelope. -/
def upon_Deliver (q mid data : Nat) : List (Nat × Nat) :=
  [(q, data)]

/-- The local self-deliveries inside an emission list, as `(target, data)`
pairs. -/
def selfDelivers (l : List Out) : List (Nat × Nat) :=
  l.filterMap fun o =>
    match o with
    | Out.deliverSelf q _ d => some (q, d)
    | _ => none

end BasicBroadcast

/-- Claim C1: in `FloodingConsensus`, `try_to_decide` does nothing when the
decision is set or some correct process is missing from the current round;
decides `min(proposals[round])`, broadcasts a decided message and notifies
the parent when the received-from sets of this round and the previous round
are equal; and otherwise increments the round and broadcasts a proposal
message for the new round carrying `proposals[round-1]`. -/
theorem flooding_try_to_decide_matches_claim (s : FloodingConsensus.State) :
    FloodingConsensus.try_to_decide s = FloodingConsensus.try_to_decide_claim s := by
  unfold FloodingConsensus.try_to_decide FloodingConsensus.try_to_decide_claim
    FloodingConsensus.decide
  simp only [Option.isSome_iff_ne_none, Nat.add_sub_cancel]

namespace LeaderBasedEpochChange

theorem startEpochTs_append (a b : List Out) :
    startEpochTs (a ++ b) = startEpochTs a ++ startEpochTs b :=
  List.filterMap_append a b _

/-- Every single step either emits no StartEpoch and keeps `lastts`, or
emits exactly one StartEpoch whose timestamp is strictly above the old
`lastts` and becomes the new `lastts`. -/
theorem startEpochTs_step (s : State) (e : Ev) :
    (startEpochTs (step s e).2 = [] ∧ (step s e).1.lastts = s.lastts) ∨
    (∃ t, startEpochTs (step s e).2 = [t] ∧ s.lastts < t ∧
      (step s e).1.lastts = t) := by
  cases e with
  | trust p =>
      left
      simp only [step, upon_Trust, new_epoch]
      split_ifs <;> simp [startEpochTs]
  | deliver q m =>
      cases m with
      | newepoch newts =>
          simp only [step, upon_Deliver]
          by_cases h : s.trusted = some q ∧ s.lastts < newts
          · right
            exact ⟨newts, by simp [h, startEpochTs], h.2, by simp [h]⟩
          · left
            simp [h, startEpochTs]
      | nack =>
          left
          simp only [step, upon_Deliver, new_epoch]
          split_ifs <;> simp [startEpochTs]

/-- Over any run, the emitted StartEpoch timestamps are pairwise increasing
and all lie strictly above the initial `lastts`. -/
theorem run_startEpochTs_aux (evs : List Ev) :
    ∀ s : State, (startEpochTs (run s evs).2).Pairwise (· < ·) ∧
      ∀ t ∈ startEpochTs (run s evs).2, s.lastts < t := by
  induction evs with
  | nil => intro s; simp [run, startEpochTs]
  | cons e es ih =>
      intro s
      have hrun : (run s (e :: es)).2 = (step s e).2 ++ (run (step s e).1 es).2 := rfl
      rw [hrun, startEpochTs_append]
      rcases startEpochTs_step s e with ⟨h0, hl⟩ | ⟨t, h1, h2, h3⟩
      · rw [h0, List.nil_append]
        refine ⟨(ih (step s e).1).1, fun u hu => ?_⟩
        have := (ih (step s e).1).2 u hu
        omega
      · rw [h1, List.singleton_append]
        constructor
        · rw [List.pairwise_cons]
          refine ⟨fun u hu => ?_, (ih (step s e).1).1⟩
          have := (ih (step s e).1).2 u hu
          omega
        · intro u hu
          rcases List.mem_cons.mp hu with rfl | hu
          · exact h2
          · have := (ih (step s e).1).2 u hu
            omega

end LeaderBasedEpochChange

/-- Claim C2: at every process running `LeaderBasedEpochChange`, over any
sequence of Trust and Deliver events from the initial state, the sequence
of timestamps carried by the StartEpoch indications it emits is strictly
increasing: an earlier StartEpoch carries a strictly smaller timestamp than
every later one. -/
theorem epoch_change_startEpoch_strictly_increasing
    (addr N rank : Nat) (evs : List LeaderBasedEpochChange.Ev) :
    (LeaderBasedEpochChange.startEpochTs
      (LeaderBasedEpochChange.run
        (LeaderBasedEpochChange.initState addr N rank) evs).2).Pairwise (· < ·) :=
  (LeaderBasedEpochChange.run_startEpochTs_aux evs
    (LeaderBasedEpochChange.initState addr N rank)).1

/-- Claim C3 evaluation: in `Synod`, a promise for ballot `(1,1)` reaching
a proposer that only ever proposed ballot `(1,0)` completes a majority of
promises none of which carries an accepted value, and the handler raises
KeyError on `self.proposals[n]` (modelled by `none`) instead of falling
back to the proposer own current proposal. -/
theorem synod_promise_majority_keyerror :
    Synod.deliver_promise Synod.keyErrorState 1 (1, 1) (none, none) = none := by
  rfl

namespace EliminateDuplicates

/-- Counting upward deliveries of one message over a run: zero when the
message was already delivered before the run, otherwise one exactly when
the message occurs among the inputs. -/
theorem run_count (m : Nat) (evs : List (Nat × Nat)) :
    ∀ s : State, ((run s evs).2.map Prod.snd).count m =
      if m ∈ s.delivered then 0
      else if m ∈ evs.map Prod.snd then 1 else 0 := by
  induction evs with
  | nil => intro s; simp [run]
  | cons e es ih =>
      intro s
      obtain ⟨q, m'⟩ := e
      have hrun : (run s ((q, m') :: es)).2 =
          (upon_Deliver s q m').2 ++ (run (upon_Deliver s q m').1 es).2 := rfl
      by_cases hd : m' ∈ s.delivered
      · have hstep : upon_Deliver s q m' = (s, []) := by
          rw [upon_Deliver, if_pos hd]
        rw [hrun, hstep]
        simp only [List.nil_append]
        rw [ih s]
        by_cases hm : m ∈ s.delivered
        · rw [if_pos hm, if_pos hm]
        · have hne : m ≠ m' := fun h => hm (h ▸ hd)
          rw [if_neg hm, if_neg hm]
          have hiff : (m ∈ List.map Prod.snd ((q, m') :: es)) ↔
              m ∈ List.map Prod.snd es := by
            rw [List.map_cons, List.mem_cons]
            exact or_iff_right hne
          rw [if_congr hiff rfl rfl]
      · have hstep : upon_Deliver s q m' = (⟨m' :: s.delivered⟩, [(q, m')]) := by
          rw [upon_Deliver, if_neg hd]
        rw [hrun, hstep]
        have ih' : List.count m
            (List.map Prod.snd (run (⟨m' :: s.delivered⟩ : State) es).2) =
            if m ∈ m' :: s.delivered then 0
            else if m ∈ List.map Prod.snd es then 1 else 0 := ih _
        have hmap : List.map Prod.snd
            ([(q, m')] ++ (run (⟨m' :: s.delivered⟩ : State) es).2) =
            m' :: List.map Prod.snd (run (⟨m' :: s.delivered⟩ : State) es).2 := rfl
        rw [hmap, List.count_cons, ih']
        by_cases hm : m = m'
        · subst hm
          have hmem2 : m ∈ List.map Prod.snd ((q, m) :: es) := by
            rw [List.map_cons]
            exact List.mem_cons_self _ _
          rw [if_pos (List.mem_cons_self m s.delivered), if_neg hd,
            if_pos hmem2, if_pos (beq_self_eq_true m)]
        · have hiffd : (m ∈ m' :: s.delivered) ↔ m ∈ s.delivered := by
            rw [List.mem_cons]
            exact or_iff_right hm
          have hiffm : (m ∈ List.map Prod.snd ((q, m') :: es)) ↔
              m ∈ List.map Prod.snd es := by
            rw [List.map_cons, List.mem_cons]
            exact or_iff_right hm
          have hbeq : ¬((m' == m) = true) := by
            simpa using Ne.symm hm
          rw [if_congr hiffd rfl rfl, if_congr hiffm rfl rfl, if_neg hbeq,
            Nat.add_zero]

end EliminateDuplicates

/-- Claim C4: starting from the initial state of `EliminateDuplicates`, if
the stubborn link delivers a message `m` two or more times (in any order,
from any senders), the module raises exactly one upward Deliver carrying
`m`. -/
theorem eliminate_duplicates_delivers_once (evs : List (Nat × Nat)) (m : Nat)
    (h : 2 ≤ (evs.map Prod.snd).count m) :
    (((EliminateDuplicates.run EliminateDuplicates.initState evs).2).map
      Prod.snd).count m = 1 := by
  have hc := EliminateDuplicates.run_count m evs EliminateDuplicates.initState
  have hmem : m ∈ evs.map Prod.snd := by
    have : 0 < (evs.map Prod.snd).count m := by omega
    exact List.count_pos_iff.mp this
  simpa [EliminateDuplicates.initState, hmem] using hc

/-- Witness for claim C4 at the concrete input where message 5 arrives
from senders 0 and 1. -/
theorem eliminate_duplicates_delivers_once_witness :
    2 ≤ (([(0, 5), (1, 5)] : List (Nat × Nat)).map Prod.snd).count 5 ∧
    (((EliminateDuplicates.run EliminateDuplicates.initState
      [(0, 5), (1, 5)]).2).map Prod.snd).count 5 = 1 :=
  ⟨by decide, eliminate_duplicates_delivers_once [(0, 5), (1, 5)] 5 (by decide)⟩

/-- Claim C9: `EliminateDuplicates` keys its duplicate suppression on the
message content alone, not on the sender: a message with the same encoding
arriving later from a different sender is suppressed, so only the first
copy is ever delivered upward. -/
theorem eliminate_duplicates_ignores_sender (q1 q2 m : Nat) (h : q1 ≠ q2) :
    (EliminateDuplicates.run EliminateDuplicates.initState
      [(q1, m), (q2, m)]).2 = [(q1, m)] := by
  simp [EliminateDuplicates.run, EliminateDuplicates.upon_Deliver,
    EliminateDuplicates.initState]

/-- Witness for claim C9 with senders 0 and 1 and message 5. -/
theorem eliminate_duplicates_ignores_sender_witness :
    (EliminateDuplicates.run EliminateDuplicates.initState
      [(0, 5), (1, 5)]).2 = [(0, 5)] :=
  eliminate_duplicates_ignores_sender 0 1 5 (by decide)

/-- Counterexample for claim C5: in `FloodingConsensus` a Propose arriving
after the decision is set is not a no-op: the handler never looks at the
decision, and here it still broadcasts a round-1 proposal message. -/
theorem flooding_propose_after_decision_not_noop :
    FloodingConsensus.decidedState.decision.isSome = true ∧
    (FloodingConsensus.upon_Propose FloodingConsensus.decidedState 5).2 ≠ [] := by
  constructor
  · rfl
  · intro h
    simp [FloodingConsensus.upon_Propose] at h

/-- Claim C5 (amended): once `Synod.chosen` is set a subsequent Propose is
a no-op, while `FloodingConsensus.upon_Propose` never checks the decision:
for every state, decided or not, it inserts the value into `proposals[1]`
and BEB-broadcasts a round-1 proposal message. -/
theorem propose_after_decision (sS : Synod.State) (sF : FloodingConsensus.State)
    (v w : Nat) (h : sS.chosen = true) :
    Synod.upon_Propose sS v = (sS, []) ∧
    (FloodingConsensus.upon_Propose sF w).2 =
      [FloodingConsensus.Out.broadcastProposal 1 (insert w (sF.proposals 1))] ∧
    (FloodingConsensus.upon_Propose sF w).1.proposals 1 =
      insert w (sF.proposals 1) := by
  refine ⟨?_, rfl, ?_⟩
  · rw [Synod.upon_Propose, if_pos h]
  · simp [FloodingConsensus.upon_Propose]

/-- Witness for claim C5 at a chosen Synod state and the decided flooding
state. -/
theorem propose_after_decision_witness :
    Synod.chosenState.chosen = true ∧
    Synod.upon_Propose Synod.chosenState 7 = (Synod.chosenState, []) ∧
    (FloodingConsensus.upon_Propose FloodingConsensus.decidedState 8).2 =
      [FloodingConsensus.Out.broadcastProposal 1
        (insert 8 (FloodingConsensus.decidedState.proposals 1))] ∧
    (FloodingConsensus.upon_Propose FloodingConsensus.decidedState 8).1.proposals 1 =
      insert 8 (FloodingConsensus.decidedState.proposals 1) := by
  have h := propose_after_decision Synod.chosenState
    FloodingConsensus.decidedState 7 8 rfl
  exact ⟨rfl, h.1, h.2.1, h.2.2⟩

/-- Claim C6 evaluation: `ReadWriteEpochChange.upon_Abort` only emits the
Aborted indication and leaves the state unchanged — no halt flag exists —
so a read message delivered after the abort is still processed and still
emits a state reply, contradicting the claim that the instance ignores
every subsequent event. -/
theorem rwec_still_handles_events_after_abort :
    ReadWriteEpochChange.upon_Abort (ReadWriteEpochChange.upon_Init (0, none) 3) =
      (ReadWriteEpochChange.abortedState,
        [ReadWriteEpochChange.Out.aborted 0 none]) ∧
    ReadWriteEpochChange.upon_Deliver ReadWriteEpochChange.abortedState 1
        ReadWriteEpochChange.Msg.read =
      some (ReadWriteEpochChange.abortedState,
        [ReadWriteEpochChange.Out.send 1 (ReadWriteEpochChange.Msg.state 0 none)]) := by
  exact ⟨rfl, rfl⟩

namespace MonarchicalLeaderElection

/-- The source `elect` agrees with the claim-side description
`elect_claim`. -/
theorem elect_eq_elect_claim (s : State) : elect s = elect_claim s := by
  unfold elect elect_claim maxOpt
  by_cases h : (s.members \ s.suspected).Nonempty
  · rw [dif_pos h, dif_pos h, Option.map_some']
    by_cases h2 : s.leader = some ((s.members \ s.suspected).max' h)
    · rw [if_pos h2.symm, if_pos h2]
    · rw [if_neg (fun hc => h2 hc.symm), if_neg h2]
  · rw [dif_neg h, dif_neg h, Option.map_none']

end MonarchicalLeaderElection

/-- Counterexample for claim C7: `MonarchicalLeaderElection` does have a
Restore handler: restoring suspected peer 1 empties the suspected set and
announces the new leader 1, so the event does not leave the suspected set
and leader unchanged. -/
theorem mle_restore_changes_state :
    MonarchicalLeaderElection.upon_Restore MonarchicalLeaderElection.restoreState 1 =
      some (⟨{0, 1}, ∅, some 1⟩, [MonarchicalLeaderElection.Out.leader 1]) ∧
    (∅ : Finset Nat) ≠ MonarchicalLeaderElection.restoreState.suspected := by
  refine ⟨?_, by decide⟩
  decide

/-- Claim C7 (amended): `MonarchicalLeaderElection` computes the leader as
the maximum of the non-suspected members, announces a Leader indication
exactly when the computed leader differs from the previously announced one,
reacts to Crash(p) by adding p to the suspected set and re-electing, and —
unlike the claim — also has a Restore handler: Restore(p) for a suspected p
removes p from the suspected set and re-elects. -/
theorem mle_crash_and_restore (s : MonarchicalLeaderElection.State) (p : Nat) :
    MonarchicalLeaderElection.elect s = MonarchicalLeaderElection.elect_claim s ∧
    MonarchicalLeaderElection.upon_Crash s p =
      MonarchicalLeaderElection.elect_claim
        {s with suspected := insert p s.suspected} ∧
    (p ∈ s.suspected →
      MonarchicalLeaderElection.upon_Restore s p =
        MonarchicalLeaderElection.elect_claim
          {s with suspected := s.suspected.erase p}) := by
  refine ⟨MonarchicalLeaderElection.elect_eq_elect_claim s, ?_, ?_⟩
  · rw [MonarchicalLeaderElection.upon_Crash,
      MonarchicalLeaderElection.elect_eq_elect_claim]
  · intro hp
    rw [MonarchicalLeaderElection.upon_Restore, if_pos hp,
      MonarchicalLeaderElection.elect_eq_elect_claim]

/-- Witness for claim C7 at the state in which peer 1 is suspected. -/
theorem mle_crash_and_restore_witness :
    (1 : Nat) ∈ MonarchicalLeaderElection.restoreState.suspected ∧
    MonarchicalLeaderElection.upon_Restore MonarchicalLeaderElection.restoreState 1 =
      MonarchicalLeaderElection.elect_claim
        {MonarchicalLeaderElection.restoreState with
          suspected := MonarchicalLeaderElection.restoreState.suspected.erase 1} := by
  have hp : (1 : Nat) ∈ MonarchicalLeaderElection.restoreState.suspected := by decide
  exact ⟨hp,
    (mle_crash_and_restore MonarchicalLeaderElection.restoreState 1).2.2 hp⟩

/-- Claim C8 evaluation: `MajorityVotingRegularRegister.upon_Write` does
increment the write timestamp and reset the ack counter and puts the new
timestamp into the message, but the broadcast carries the stored `self.val`
(here 7) rather than the value passed to the Write request (here 9). -/
theorem mvr_write_broadcasts_stored_val :
    MajorityVotingRegularRegister.upon_Write
        MajorityVotingRegularRegister.writeState 9 =
      (⟨3, 0, some 7, 1, 0, 0, []⟩,
        [MajorityVotingRegularRegister.Out.broadcastWrite 1 (some 7)]) ∧
    (some 7 : Option Nat) ≠ some 9 := by
  exact ⟨rfl, by decide⟩

/-- Claim C10: with a non-empty peer list, `BasicBroadcast.upon_Broadcast`
succeeds and triggers exactly one local Deliver, addressed to the
broadcaster and carrying data m, which the Deliver handler passes upward as
the message m; with an empty peer list the handler fails (the Python
variable msg is never bound) and no local delivery occurs. -/
theorem basic_broadcast_local_delivery (addr : Nat) (peers : List Nat)
    (mids : Nat → Nat) (m : Nat) :
    (peers = [] → BasicBroadcast.upon_Broadcast addr peers mids m = none) ∧
    (peers ≠ [] → ∃ outs,
      BasicBroadcast.upon_Broadcast addr peers mids m = some outs ∧
      BasicBroadcast.selfDelivers outs = [(addr, m)] ∧
      ∀ q mid d, BasicBroadcast.Out.deliverSelf q mid d ∈ outs →
        BasicBroadcast.upon_Deliver q mid d = [(q, m)]) := by
  constructor
  · intro h
    rw [BasicBroadcast.upon_Broadcast, if_pos (by simp [h])]
  · intro h
    refine ⟨(((List.range peers.length).zip peers).map fun ip =>
        BasicBroadcast.Out.send ip.2 (mids ip.1) m)
      ++ [BasicBroadcast.Out.deliverSelf addr (mids (peers.length - 1)) m],
      ?_, ?_, ?_⟩
    · rw [BasicBroadcast.upon_Broadcast, if_neg (by simp [h])]
    · unfold BasicBroadcast.selfDelivers
      rw [List.filterMap_append]
      have h1 : (((List.range peers.length).zip peers).map fun ip =>
          BasicBroadcast.Out.send ip.2 (mids ip.1) m).filterMap
          (fun o => match o with
            | BasicBroadcast.Out.deliverSelf q _ d => some (q, d)
            | _ => none) = [] := by
        rw [List.filterMap_eq_nil_iff]
        intro a ha
        obtain ⟨ip, _, rfl⟩ := List.mem_map.mp ha
        rfl
      rw [h1, List.nil_append]
      rfl
    · intro q mid d hmem
      rcases List.mem_append.mp hmem with hin | hin
      · obtain ⟨ip, _, heq⟩ := List.mem_map.mp hin
        exact absurd heq (by simp)
      · rw [List.mem_singleton] at hin
        cases hin
        rfl

/-- Witness for claim C10: the empty peer list fails, and peers [1, 2]
produce exactly one local delivery of message 5 to the broadcaster 0. -/
theorem basic_broadcast_local_delivery_witness :
    BasicBroadcast.upon_Broadcast 0 [] (fun i => i) 5 = none ∧
    ∃ outs, BasicBroadcast.upon_Broadcast 0 [1, 2] (fun i => i) 5 = some outs ∧
      BasicBroadcast.selfDelivers outs = [(0, 5)] ∧
      ∀ q mid d, BasicBroadcast.Out.deliverSelf q mid d ∈ outs →
        BasicBroadcast.upon_Deliver q mid d = [(q, 5)] :=
  ⟨(basic_broadcast_local_delivery 0 [] (fun i => i) 5).1 rfl,
    (basic_broadcast_local_delivery 0 [1, 2] (fun i => i) 5).2 (by decide)⟩
